import Mathlib

/-!
Shallow embedding of `redistore.go` (package redistore): session value bags,
the two session serializers (GobSerializer, JSONSerializer), the RediStore
session lifecycle operations (New, Save, save, load, delete), and the
option-based store construction (NewStore / storeConfig.validate).

Network and cryptography collaborators (redigo, gorilla/securecookie,
gorilla/sessions cookies) are external to the repository; their outcomes are
modelled as explicit oracle parameters, and the byte-level encoding performed
by the standard library's gob/json packages is modelled by a concrete
injective encoding into `List Nat`, faithful to the properties the code
relies on (gob: exact round trip, merge-into-map on decode; json: string
keys only, numeric widening on decode).
-/

namespace Redistore

/-- Keys of a session's `Values` map (`map[interface{}]interface{}` in Go):
either a string key or a non-string key (modelled by an integer key). -/
inductive SKey where
  | kstr (s : String)
  | kint (n : Int)
  deriving DecidableEq

/-- Values stored in a session's value bag. `vint` is a Go `int`, `vstr` a
string, `vbool` a bool, `vnum` a JSON number (`float64` holding an integral
value) — the type json.Unmarshal widens numbers to. -/
inductive SVal where
  | vint (n : Int)
  | vstr (s : String)
  | vbool (b : Bool)
  | vnum (n : Int)
  deriving DecidableEq

/-- A session value bag: association list standing for the Go map
(keys are unique in any bag that arises from a Go map). -/
abbrev Values := List (SKey × SVal)

/-- Serialized payload bytes (abstracted: one `Nat` per token). -/
abbrev Bytes := List Nat

/-- Length-prefixed string encoding (models the byte form a marshaller
gives a string). -/
def encString (s : String) : Bytes :=
  s.data.length :: s.data.map Char.toNat

/-- Decode a length-prefixed string from the front of a byte stream. -/
def decString : Bytes → Option (String × Bytes)
  | [] => none
  | n :: rest =>
    if n ≤ rest.length then
      some (String.mk ((rest.take n).map Char.ofNat), rest.drop n)
    else none

/-- Sign-and-magnitude integer encoding. -/
def encInt (n : Int) : Bytes :=
  [if n < 0 then 1 else 0, n.natAbs]

/-- Decode an integer from the front of a byte stream. -/
def decInt : Bytes → Option (Int × Bytes)
  | s :: m :: rest => some ((if s = 1 then -(m : Int) else (m : Int)), rest)
  | _ => none

/-- Tagged encoding of a session key (gob encodes the dynamic type). -/
def encSKey : SKey → Bytes
  | .kstr s => 0 :: encString s
  | .kint n => 1 :: encInt n

/-- Decode a session key. -/
def decSKey : Bytes → Option (SKey × Bytes)
  | 0 :: rest => (decString rest).map (fun p => (.kstr p.1, p.2))
  | 1 :: rest => (decInt rest).map (fun p => (.kint p.1, p.2))
  | _ => none

/-- Tagged encoding of a session value (gob preserves the dynamic type). -/
def encSVal : SVal → Bytes
  | .vint n => 0 :: encInt n
  | .vstr s => 1 :: encString s
  | .vbool b => 2 :: [if b then 1 else 0]
  | .vnum n => 3 :: encInt n

/-- Decode a session value (gob: tags map back to the exact type). -/
def decSVal : Bytes → Option (SVal × Bytes)
  | 0 :: rest => (decInt rest).map (fun p => (.vint p.1, p.2))
  | 1 :: rest => (decString rest).map (fun p => (.vstr p.1, p.2))
  | 2 :: c :: rest => some (.vbool (c == 1), rest)
  | 3 :: rest => (decInt rest).map (fun p => (.vnum p.1, p.2))
  | _ => none

/-- Encode one key/value pair. -/
def encPair (p : SKey × SVal) : Bytes :=
  encSKey p.1 ++ encSVal p.2

/-- Decode one key/value pair. -/
def decPair (b : Bytes) : Option ((SKey × SVal) × Bytes) :=
  match decSKey b with
  | none => none
  | some (k, r) =>
    match decSVal r with
    | none => none
    | some (v, r2) => some ((k, v), r2)

/-- Decode a counted sequence of key/value pairs. -/
def decPairs : Nat → Bytes → Option (Values × Bytes)
  | 0, b => some ([], b)
  | n + 1, b =>
    match decPair b with
    | none => none
    | some (p, r) =>
      match decPairs n r with
      | none => none
      | some (ps, r2) => some (p :: ps, r2)

/-- Model of `gob.Encoder.Encode(ss.Values)`: a count-prefixed, type-tagged
encoding of the whole value bag. -/
def gobEncode (vs : Values) : Bytes :=
  vs.length :: vs.flatMap encPair

/-- Model of `gob.Decoder.Decode(&ss.Values)`: parse the count-prefixed
pair sequence; malformed input is a decode error (`none`). -/
def gobDecode (b : Bytes) : Option Values :=
  match b with
  | [] => none
  | n :: rest => (decPairs n rest).map Prod.fst

/-- JSON numeric widening: json.Unmarshal returns every number as a
`float64`, so an int comes back as a number; other values keep their type. -/
def jwiden : SVal → SVal
  | .vint n => .vnum n
  | .vstr s => .vstr s
  | .vbool b => .vbool b
  | .vnum n => .vnum n

/-- JSON value encoding: ints and numbers share one representation
(json.Marshal writes both as a bare number). -/
def jsonEncVal : SVal → Bytes
  | .vint n => 0 :: encInt n
  | .vnum n => 0 :: encInt n
  | .vstr s => 1 :: encString s
  | .vbool b => 2 :: [if b then 1 else 0]

/-- Decode a JSON value: numbers come back as `vnum` (float64). -/
def jsonDecVal : Bytes → Option (SVal × Bytes)
  | 0 :: rest => (decInt rest).map (fun p => (.vnum p.1, p.2))
  | 1 :: rest => (decString rest).map (fun p => (.vstr p.1, p.2))
  | 2 :: c :: rest => some (.vbool (c == 1), rest)
  | _ => none

/-- Encode one string-keyed JSON member. -/
def jsonEncPair (p : String × SVal) : Bytes :=
  encString p.1 ++ jsonEncVal p.2

/-- Decode one string-keyed JSON member. -/
def jsonDecPair (b : Bytes) : Option ((String × SVal) × Bytes) :=
  match decString b with
  | none => none
  | some (k, r) =>
    match jsonDecVal r with
    | none => none
    | some (v, r2) => some ((k, v), r2)

/-- Decode a counted sequence of JSON members. -/
def jsonDecPairs : Nat → Bytes → Option (List (String × SVal) × Bytes)
  | 0, b => some ([], b)
  | n + 1, b =>
    match jsonDecPair b with
    | none => none
    | some (p, r) =>
      match jsonDecPairs n r with
      | none => none
      | some (ps, r2) => some (p :: ps, r2)

/-- Model of `json.Marshal(m)` for a string-keyed map. -/
def jsonEncode (m : List (String × SVal)) : Bytes :=
  m.length :: m.flatMap jsonEncPair

/-- Model of `json.Unmarshal(d, &m)` into a string-keyed map. -/
def jsonDecode (b : Bytes) : Option (List (String × SVal)) :=
  match b with
  | [] => none
  | n :: rest => (jsonDecPairs n rest).map Prod.fst

/-- The cookie directives a session carries (`sessions.Options`): the path
and the max-age in seconds are the attributes the claims are about. -/
structure SessionOptions where
  path : String
  maxAge : Int
  deriving DecidableEq

/-- A `sessions.Session`: name, identifier (empty until first save), value
bag, cookie options, freshness flag. -/
structure Session where
  name : String
  id : String
  values : Values
  options : SessionOptions
  isNew : Bool
  deriving DecidableEq

/-- Which of the two repository serializers a store uses
(`GobSerializer` or `JSONSerializer`). -/
inductive SerializerKind where
  | gob
  | json
  deriving DecidableEq

/-- Update one key of a Go map modelled as an association list: overwrite
in place if the key is present, append otherwise (`m[k] = v`). -/
def bagInsert (b : Values) (k : SKey) (v : SVal) : Values :=
  if b.any (fun p => decide (p.1 = k)) then
    b.map (fun p => if p.1 = k then (k, v) else p)
  else
    b ++ [(k, v)]

/-- Merge decoded pairs into an existing bag, in order (the semantics of
both gob's decode-into-map and the JSON deserializer's assignment loop). -/
def mergeVals (b : Values) (m : Values) : Values :=
  m.foldl (fun acc p => bagInsert acc p.1 p.2) b

/-- `JSONSerializer.Serialize`: every key must be a string, otherwise the
serialization fails with an error; then the string-keyed map is marshalled. -/
def allStringKeys (vs : Values) : Bool :=
  vs.all (fun p => match p.1 with | .kstr _ => true | .kint _ => false)

/-- The string-keyed map `m` that `JSONSerializer.Serialize` builds from the
value bag (only meaningful when `allStringKeys` holds). -/
def stringPairs (vs : Values) : List (String × SVal) :=
  vs.filterMap (fun p => match p.1 with | .kstr s => some (s, p.2) | .kint _ => none)

/-- `JSONSerializer.Serialize(ss)`. -/
def JSONSerialize (ss : Session) : Except String Bytes :=
  if allStringKeys ss.values then
    .ok (jsonEncode (stringPairs ss.values))
  else
    .error "non-string key value, cannot serialize session to JSON"

/-- `JSONSerializer.Deserialize(d, ss)`: unmarshal into a string-keyed map,
then assign each pair into the session's value bag (merge, not replace). -/
def JSONDeserialize (d : Bytes) (ss : Session) : Except String Session :=
  match jsonDecode d with
  | none => .error "json unmarshal error"
  | some m =>
    .ok { ss with values := mergeVals ss.values (m.map (fun p => (SKey.kstr p.1, p.2))) }

/-- `GobSerializer.Serialize(ss)`: gob-encode the value bag (never fails for
the value types modelled here). -/
def GobSerialize (ss : Session) : Except String Bytes :=
  .ok (gobEncode ss.values)

/-- `GobSerializer.Deserialize(d, ss)`: gob-decode and merge into the value
bag (gob decoding into an existing map preserves entries it does not
overwrite). -/
def GobDeserialize (d : Bytes) (ss : Session) : Except String Session :=
  match gobDecode d with
  | none => .error "gob decode error"
  | some m => .ok { ss with values := mergeVals ss.values m }

/-- Dispatch on the store's configured serializer (`s.serializer.Serialize`). -/
def serializeWith : SerializerKind → Session → Except String Bytes
  | .gob, ss => GobSerialize ss
  | .json, ss => JSONSerialize ss

/-- Dispatch on the store's configured serializer (`s.serializer.Deserialize`). -/
def deserializeWith : SerializerKind → Bytes → Session → Except String Session
  | .gob, d, ss => GobDeserialize d ss
  | .json, d, ss => JSONDeserialize d ss

/-- The `RediStore` fields the lifecycle operations read. The redigo pool
and the securecookie codecs are external collaborators; their effects enter
through oracle parameters. -/
structure RediStore where
  options : SessionOptions
  DefaultMaxAge : Int
  maxLength : Int
  keyPrefix : String
  serializer : SerializerKind
  deriving DecidableEq

/-- A redis command as issued over a borrowed pool connection. -/
inductive RedisCmd where
  | setex (key : String) (ttl : Int) (val : Bytes)
  | del (key : String)
  | get (key : String)
  deriving DecidableEq

/-- The key a command addresses. -/
def cmdKey : RedisCmd → String
  | .setex k _ _ => k
  | .del k => k
  | .get k => k

/-- Outcomes of the connection used by `save`: `connErr` models
`conn.Err()`, `cmdErr` a failure of the `SETEX` round trip. -/
structure ConnOracle where
  connErr : Option String
  cmdErr : Option String

/-- Result of the low-level `save`: the returned error (if any) and the
redis commands that were put on the wire. -/
structure SaveLowRes where
  res : Except String Unit
  trace : List RedisCmd

/-- `RediStore.save`: serialize, enforce the byte-length ceiling
(`maxLength != 0 && len(b) > maxLength`), then `SETEX` with TTL = MaxAge,
substituting `DefaultMaxAge` when MaxAge is exactly 0. -/
def RediStore.save (s : RediStore) (session : Session) (o : ConnOracle) : SaveLowRes :=
  match serializeWith s.serializer session with
  | .error e => ⟨.error e, []⟩
  | .ok b =>
    if s.maxLength ≠ 0 ∧ (b.length : Int) > s.maxLength then
      ⟨.error "SessionStore: the value to store is too big", []⟩
    else
      match o.connErr with
      | some e => ⟨.error e, []⟩
      | none =>
        let age := if session.options.maxAge = 0 then s.DefaultMaxAge else session.options.maxAge
        ⟨(match o.cmdErr with | some e => .error e | none => .ok ()),
          [.setex (s.keyPrefix ++ session.id) age b]⟩

/-- Outcomes of the connection used by `load`: `conn.Err()` and the reply
to `GET` (transport error, absent key, or stored bytes). -/
structure LoadOracle where
  connErr : Option String
  getResult : Except String (Option Bytes)

/-- Result of the low-level `load`: the `(bool, error)` pair returned,
the possibly-updated session, and the commands issued. -/
structure LoadRes where
  found : Bool
  err : Option String
  session : Session
  trace : List RedisCmd

/-- `RediStore.load`: `GET keyPrefix+ID`; `(false, err)` on transport
failure, `(false, nil)` when no data is stored, otherwise `(true, err')`
where `err'` is the deserialization outcome merged into the value bag. -/
def RediStore.load (s : RediStore) (session : Session) (o : LoadOracle) : LoadRes :=
  match o.connErr with
  | some e => ⟨false, some e, session, []⟩
  | none =>
    let tr := [RedisCmd.get (s.keyPrefix ++ session.id)]
    match o.getResult with
    | .error e => ⟨false, some e, session, tr⟩
    | .ok none => ⟨false, none, session, tr⟩
    | .ok (some b) =>
      match deserializeWith s.serializer b session with
      | .error e => ⟨true, some e, session, tr⟩
      | .ok session2 => ⟨true, none, session2, tr⟩

/-- `RediStore.delete` (lower-case): issue `DEL keyPrefix+ID`; the value
bag is untouched. -/
def RediStore.delete (s : RediStore) (session : Session) (delErr : Option String) : SaveLowRes :=
  ⟨(match delErr with | some e => .error e | none => .ok ()),
    [.del (s.keyPrefix ++ session.id)]⟩

/-- A Set-Cookie directive as produced by `sessions.NewCookie`: the options
(among them the max-age attribute) are taken verbatim from the options
passed in. -/
structure Cookie where
  name : String
  value : String
  opts : SessionOptions
  deriving DecidableEq

/-- `sessions.NewCookie(name, value, options)`. -/
def newCookie (name value : String) (opts : SessionOptions) : Cookie :=
  ⟨name, value, opts⟩

/-- External outcomes consulted by `Save`: the `DEL` of the deletion
branch, the connection used by `save`, and `securecookie.EncodeMulti`. -/
structure SaveOracle where
  delErr : Option String
  conn : ConnOracle
  encodeResult : Except String String

/-- Result of `Save`: returned error, the session object afterwards (its ID
may have been assigned), the redis commands issued, and the cookies written
to the response. -/
structure SaveRes where
  res : Except String Unit
  session : Session
  trace : List RedisCmd
  cookies : List Cookie

/-- `RediStore.Save`: MaxAge ≤ 0 is the deletion branch (`delete`, then an
empty-valued cookie carrying `session.Options`); otherwise assign a fresh
random identifier when the ID is empty (`freshId` stands for the base32
token), `save`, `EncodeMulti`, and only then set the cookie. -/
def RediStore.Save (s : RediStore) (session : Session) (freshId : String)
    (o : SaveOracle) : SaveRes :=
  if session.options.maxAge ≤ 0 then
    match s.delete session o.delErr with
    | ⟨.error e, tr⟩ => ⟨.error e, session, tr, []⟩
    | ⟨.ok _, tr⟩ => ⟨.ok (), session, tr, [newCookie session.name "" session.options]⟩
  else
    let session1 := if session.id = "" then { session with id := freshId } else session
    match s.save session1 o.conn with
    | ⟨.error e, tr⟩ => ⟨.error e, session1, tr, []⟩
    | ⟨.ok _, tr⟩ =>
      match o.encodeResult with
      | .error e => ⟨.error e, session1, tr, []⟩
      | .ok enc =>
        ⟨.ok (), session1, tr, [newCookie session1.name enc session1.options]⟩

/-- Result of `New`: the session handed to the caller and the returned
error. -/
structure NewRes where
  session : Session
  err : Option String

/-- `RediStore.New`: build a fresh session carrying a copy of the store's
default options with `IsNew = true`; when the request carries a cookie of
that name, `DecodeMulti` it into the ID (`decodeResult`), `load`, and set
`IsNew = err != nil || !ok`. -/
def RediStore.New (s : RediStore) (name : String) (cookie : Option String)
    (decodeResult : Except String String) (lo : LoadOracle) : NewRes :=
  let base : Session :=
    { name := name, id := "", values := [], options := s.options, isNew := true }
  match cookie with
  | none => ⟨base, none⟩
  | some _ =>
    match decodeResult with
    | .error e => ⟨base, some e⟩
    | .ok sid =>
      let sess := { base with id := sid }
      let lr := s.load sess lo
      ⟨{ lr.session with isNew := lr.err.isSome || !lr.found }, lr.err⟩

/-- `sessionExpire`: 30 days in seconds, the package-level default MaxAge. -/
def sessionExpire : Int := 86400 * 30

/-- `storeConfig`: the internal configuration assembled by the options
before the store is built. The redigo pool handle is abstract (`Unit`);
what matters to the claims is whether it was supplied and non-nil. -/
structure storeConfig where
  pool : Option Unit
  address : Option (String × String)
  url : String
  username : String
  password : String
  db : String
  poolSize : Int
  idleTimeout : Int
  maxLength : Int
  keyPrefix : String
  defaultMaxAge : Int
  serializer : SerializerKind
  sessionOpts : SessionOptions

/-- `defaultConfig()`. The idle timeout is kept in seconds. -/
def defaultConfig : storeConfig :=
  { pool := none
    address := none
    url := ""
    username := ""
    password := ""
    db := "0"
    poolSize := 10
    idleTimeout := 240
    maxLength := 4096
    keyPrefix := "session_"
    defaultMaxAge := 60 * 20
    serializer := .gob
    sessionOpts := { path := "/", maxAge := sessionExpire } }

/-- The option functions passed to `NewStore`, as data. A Go `nil` argument
is `none`. -/
inductive StoreOpt where
  | withPool (p : Option Unit)
  | withAddress (network address : String)
  | withURL (u : String)
  | withAuth (username password : String)
  | withPassword (password : String)
  | withDB (db : String)
  | withDBNum (n : Int)
  | withPoolSize (n : Int)
  | withIdleTimeout (t : Int)
  | withMaxLength (n : Int)
  | withKeyPrefix (p : String)
  | withDefaultMaxAge (n : Int)
  | withSerializer (k : Option SerializerKind)
  | withSessionOptions (o : Option SessionOptions)
  | withPath (p : String)
  | withMaxAge (n : Int)

/-- Applying one option function to the configuration (`opt(cfg)`),
reproducing each `With*` function's validation. `strconv.Atoi` is modelled
by `String.toInt?`. -/
def applyOption (opt : StoreOpt) (cfg : storeConfig) : Except String storeConfig :=
  match opt with
  | .withPool p =>
    match p with
    | none => .error "pool cannot be nil"
    | some u => .ok { cfg with pool := some u }
  | .withAddress network address =>
    if network = "" ∨ address = "" then .error "network and address cannot be empty"
    else .ok { cfg with address := some (network, address) }
  | .withURL u =>
    if u = "" then .error "url cannot be empty"
    else .ok { cfg with url := u }
  | .withAuth username password =>
    .ok { cfg with username := username, password := password }
  | .withPassword password =>
    .ok { cfg with password := password }
  | .withDB db =>
    let db2 := if db = "" then "0" else db
    match db2.toInt? with
    | none => .error "invalid database number"
    | some n =>
      if n < 0 ∨ n > 15 then .error "database number must be between 0 and 15"
      else .ok { cfg with db := db2 }
  | .withDBNum n =>
    if n < 0 ∨ n > 15 then .error "database number must be between 0 and 15"
    else .ok { cfg with db := toString n }
  | .withPoolSize n =>
    if n ≤ 0 then .error "pool size must be positive"
    else .ok { cfg with poolSize := n }
  | .withIdleTimeout t =>
    if t < 0 then .error "idle timeout cannot be negative"
    else .ok { cfg with idleTimeout := t }
  | .withMaxLength n =>
    if n < 0 then .error "max length cannot be negative"
    else .ok { cfg with maxLength := n }
  | .withKeyPrefix p =>
    .ok { cfg with keyPrefix := p }
  | .withDefaultMaxAge n =>
    if n < 0 then .error "default max age cannot be negative"
    else .ok { cfg with defaultMaxAge := n }
  | .withSerializer k =>
    match k with
    | none => .error "serializer cannot be nil"
    | some k2 => .ok { cfg with serializer := k2 }
  | .withSessionOptions o =>
    match o with
    | none => .error "session options cannot be nil"
    | some o2 => .ok { cfg with sessionOpts := o2 }
  | .withPath p =>
    .ok { cfg with sessionOpts := { cfg.sessionOpts with path := p } }
  | .withMaxAge n =>
    .ok { cfg with sessionOpts := { cfg.sessionOpts with maxAge := n } }

/-- Fold the option functions over the configuration, stopping at the first
failing option (`failed to apply option i`). -/
def applyOptions : List StoreOpt → storeConfig → Except String storeConfig
  | [], cfg => .ok cfg
  | o :: os, cfg =>
    match applyOption o cfg with
    | .error e => .error ("failed to apply option: " ++ e)
    | .ok cfg2 => applyOptions os cfg2

/-- How many connection targets the configuration carries. -/
def storeConfig.connCount (cfg : storeConfig) : Nat :=
  (if cfg.pool.isSome then 1 else 0) +
    (if cfg.address.isSome then 1 else 0) +
    (if cfg.url ≠ "" then 1 else 0)

/-- `storeConfig.validate()`: exactly one connection target. -/
def storeConfig.validate (cfg : storeConfig) : Except String Unit :=
  if cfg.connCount = 0 then
    .error "exactly one connection option is required"
  else if cfg.connCount > 1 then
    .error "only one connection option can be specified"
  else
    .ok ()

/-- `storeConfig.buildPool()`: pool construction itself opens no network
connection (redigo dials lazily); it only selects the dial method. -/
def storeConfig.buildPool (cfg : storeConfig) : Except String Unit :=
  if cfg.pool.isSome then .ok ()
  else if cfg.address.isSome then .ok ()
  else if cfg.url ≠ "" then .ok ()
  else .error "no connection method specified"

/-- The store `NewStore` assembles from a validated configuration. -/
def mkRediStore (cfg : storeConfig) : RediStore :=
  { options := cfg.sessionOpts
    DefaultMaxAge := cfg.defaultMaxAge
    maxLength := cfg.maxLength
    keyPrefix := cfg.keyPrefix
    serializer := cfg.serializer }

/-- Result of `NewStore`: the store or the construction error, plus whether
a network connection was attempted (the `ping()` connectivity test is the
first network use). -/
structure NewStoreRes where
  res : Except String RediStore
  networkAttempted : Bool

/-- `NewStore(keyPairs, opts...)`: key-pair check, option application,
validation, pool construction, then the `ping` connectivity test
(`pingResult` is the oracle for that first network round trip). -/
def NewStore (keyPairs : List Bytes) (opts : List StoreOpt)
    (pingResult : Except String Bool) : NewStoreRes :=
  if keyPairs = [] then
    ⟨.error "at least one key pair is required", false⟩
  else
    match applyOptions opts defaultConfig with
    | .error e => ⟨.error e, false⟩
    | .ok cfg =>
      match cfg.validate with
      | .error e => ⟨.error ("invalid configuration: " ++ e), false⟩
      | .ok _ =>
        match cfg.buildPool with
        | .error e => ⟨.error ("failed to create connection pool: " ++ e), false⟩
        | .ok _ =>
          match pingResult with
          | .error e => ⟨.error ("failed to connect to Redis: " ++ e), true⟩
          | .ok _ => ⟨.ok (mkRediStore cfg), true⟩

/-- A heap of `sessions.Options` cells, making the pointer structure of
`RediStore.Options` / `session.Options` explicit for the aliasing claim. -/
abbrev OptionsHeap := List SessionOptions

/-- Dereference an options pointer. -/
def heapRead (h : OptionsHeap) (r : Nat) : Option SessionOptions :=
  h[r]?

/-- Assign through an options pointer (`session.Options.MaxAge = ...`). -/
def heapWrite (h : OptionsHeap) (r : Nat) (v : SessionOptions) : OptionsHeap :=
  h.set r v

/-- The pointer step `New` performs: `options := *s.Options;
session.Options = &options` — allocate a fresh cell holding a copy of the
store's options and hand its address to the session. -/
def newSessionAlloc (h : OptionsHeap) (storeRef : Nat) : OptionsHeap × Nat :=
  (h ++ [h.getD storeRef { path := "", maxAge := 0 }], h.length)

/-- Whether a securecookie decode/encode outcome succeeded. -/
def exceptOk (e : Except String String) : Bool :=
  match e with
  | .ok _ => true
  | .error _ => false

/-- Whether a stored payload deserializes without error under the given
serializer (the sole input its success depends on is the payload bytes). -/
def deserializeOk (k : SerializerKind) (b : Bytes) : Bool :=
  match k with
  | .gob => (gobDecode b).isSome
  | .json => (jsonDecode b).isSome

/-- The condition under which `load` reports "no error and data available":
no transport failure, `GET` returned a payload, and that payload
deserialized successfully. -/
def loadFound (k : SerializerKind) (lo : LoadOracle) : Bool :=
  lo.connErr.isNone &&
    (match lo.getResult with
     | .ok (some b) => deserializeOk k b
     | _ => false)

/-- A concrete store used by the closed witness theorems. -/
def wStore : RediStore :=
  { options := { path := "/", maxAge := sessionExpire }
    DefaultMaxAge := 1200
    maxLength := 4096
    keyPrefix := "session_"
    serializer := .gob }

/-- A concrete all-success oracle used by the closed witness theorems. -/
def wOracle : SaveOracle :=
  { delErr := none, conn := { connErr := none, cmdErr := none }, encodeResult := .ok "enc" }

theorem decString_encString (s : String) (r : Bytes) :
    decString (encString s ++ r) = some (s, r) := by
  have hlen : s.data.length = (s.data.map Char.toNat).length := (List.length_map _ _).symm
  have htake : (s.data.map Char.toNat ++ r).take s.data.length = s.data.map Char.toNat := by
    rw [hlen]; exact List.take_left _ _
  have hdrop : (s.data.map Char.toNat ++ r).drop s.data.length = r := by
    rw [hlen]; exact List.drop_left _ _
  have hmap : (s.data.map Char.toNat).map Char.ofNat = s.data := by
    rw [List.map_map]
    have : ∀ c ∈ s.data, (Char.ofNat ∘ Char.toNat) c = id c := by
      intro c _; exact Char.ofNat_toNat c
    rw [List.map_congr_left this, List.map_id]
  simp only [encString, List.cons_append, decString]
  rw [if_pos (by rw [List.length_append, List.length_map]; omega)]
  rw [htake, hdrop, hmap]

theorem decInt_encInt (n : Int) (r : Bytes) :
    decInt (encInt n ++ r) = some (n, r) := by
  show decInt ((if n < 0 then 1 else 0) :: n.natAbs :: r) = some (n, r)
  by_cases h : n < 0
  · rw [if_pos h]
    show some ((if (1 : Nat) = 1 then -(n.natAbs : Int) else (n.natAbs : Int)), r) = some (n, r)
    rw [if_pos rfl]
    have hn : -(n.natAbs : Int) = n := by omega
    rw [hn]
  · rw [if_neg h]
    show some ((if (0 : Nat) = 1 then -(n.natAbs : Int) else (n.natAbs : Int)), r) = some (n, r)
    rw [if_neg (by omega)]
    have hn : (n.natAbs : Int) = n := by omega
    rw [hn]

theorem decSKey_encSKey (k : SKey) (r : Bytes) :
    decSKey (encSKey k ++ r) = some (k, r) := by
  cases k <;> simp [encSKey, decSKey, decString_encString, decInt_encInt]

theorem decSVal_encSVal (v : SVal) (r : Bytes) :
    decSVal (encSVal v ++ r) = some (v, r) := by
  cases v with
  | vbool b => cases b <;> simp [encSVal, decSVal]
  | _ => simp [encSVal, decSVal, decString_encString, decInt_encInt]

theorem decPair_encPair (p : SKey × SVal) (r : Bytes) :
    decPair (encPair p ++ r) = some (p, r) := by
  simp [encPair, decPair, List.append_assoc, decSKey_encSKey, decSVal_encSVal]

theorem decPairs_enc (vs : Values) (r : Bytes) :
    decPairs vs.length (vs.flatMap encPair ++ r) = some (vs, r) := by
  induction vs generalizing r with
  | nil => simp [decPairs]
  | cons p t ih =>
    simp only [List.flatMap_cons, List.length_cons, List.append_assoc, decPairs,
      decPair_encPair]
    rw [ih]

theorem gobDecode_gobEncode (vs : Values) :
    gobDecode (gobEncode vs) = some vs := by
  have := decPairs_enc vs []
  rw [List.append_nil] at this
  simp [gobEncode, gobDecode, this]

theorem jsonDecVal_jsonEncVal (v : SVal) (r : Bytes) :
    jsonDecVal (jsonEncVal v ++ r) = some (jwiden v, r) := by
  cases v with
  | vbool b => cases b <;> simp [jsonEncVal, jsonDecVal, jwiden]
  | _ => simp [jsonEncVal, jsonDecVal, jwiden, decString_encString, decInt_encInt]

theorem jsonDecPair_jsonEncPair (p : String × SVal) (r : Bytes) :
    jsonDecPair (jsonEncPair p ++ r) = some ((p.1, jwiden p.2), r) := by
  simp [jsonEncPair, jsonDecPair, List.append_assoc, decString_encString,
    jsonDecVal_jsonEncVal]

theorem jsonDecPairs_enc (m : List (String × SVal)) (r : Bytes) :
    jsonDecPairs m.length (m.flatMap jsonEncPair ++ r) =
      some (m.map (fun p => (p.1, jwiden p.2)), r) := by
  induction m generalizing r with
  | nil => simp [jsonDecPairs]
  | cons p t ih =>
    simp only [List.flatMap_cons, List.length_cons, List.append_assoc, jsonDecPairs,
      jsonDecPair_jsonEncPair]
    rw [ih]
    rfl

theorem jsonDecode_jsonEncode (m : List (String × SVal)) :
    jsonDecode (jsonEncode m) = some (m.map (fun p => (p.1, jwiden p.2))) := by
  have := jsonDecPairs_enc m []
  rw [List.append_nil] at this
  simp [jsonEncode, jsonDecode, this]

theorem bagInsert_of_notMem (acc : Values) (k : SKey) (v : SVal)
    (h : ∀ q ∈ acc, q.1 ≠ k) : bagInsert acc k v = acc ++ [(k, v)] := by
  have hany : acc.any (fun p => decide (p.1 = k)) = false := by
    rw [List.any_eq_false]
    intro p hp
    simp only [decide_eq_true_eq]
    exact h p hp
  simp [bagInsert, hany]

theorem mergeVals_of_disjoint (m : Values) : ∀ acc : Values,
    (m.map Prod.fst).Nodup →
    (∀ p ∈ m, ∀ q ∈ acc, q.1 ≠ p.1) →
    mergeVals acc m = acc ++ m := by
  induction m with
  | nil =>
    intro acc _ _
    simp [mergeVals]
  | cons p t ih =>
    intro acc hnd hd
    obtain ⟨k, v⟩ := p
    have hins : bagInsert acc k v = acc ++ [(k, v)] := by
      refine bagInsert_of_notMem acc k v (fun q hq => ?_)
      exact hd (k, v) (List.mem_cons_self _ _) q hq
    have hstep : mergeVals acc ((k, v) :: t) = mergeVals (acc ++ [(k, v)]) t := by
      simp [mergeVals, hins]
    rw [hstep]
    have hnd2 : (t.map Prod.fst).Nodup := (List.nodup_cons.mp hnd).2
    have hknotin : k ∉ t.map Prod.fst := (List.nodup_cons.mp hnd).1
    have hd2 : ∀ x ∈ t, ∀ q ∈ acc ++ [(k, v)], q.1 ≠ x.1 := by
      intro x hx q hq
      rcases List.mem_append.mp hq with hq1 | hq2
      · exact hd x (List.mem_cons_of_mem _ hx) q hq1
      · have hqe : q = (k, v) := by simpa using hq2
        subst hqe
        intro hkx
        refine hknotin ?_
        have hx1 : x.1 ∈ t.map Prod.fst := List.mem_map_of_mem Prod.fst hx
        have hkx2 : k = x.1 := hkx
        rw [hkx2]
        exact hx1
    rw [ih (acc ++ [(k, v)]) hnd2 hd2]
    simp

theorem mergeVals_nil_left (m : Values) (h : (m.map Prod.fst).Nodup) :
    mergeVals [] m = m := by
  have := mergeVals_of_disjoint m [] h (by simp)
  simpa using this

theorem stringPairs_widen (vs : Values) (h : allStringKeys vs = true) :
    (stringPairs vs).map (fun p => (SKey.kstr p.1, jwiden p.2)) =
      vs.map (fun p => (p.1, jwiden p.2)) := by
  induction vs with
  | nil => rfl
  | cons p t ih =>
    obtain ⟨k, v⟩ := p
    cases k with
    | kstr s =>
      have h2 : allStringKeys t = true := by
        simpa [allStringKeys] using h
      have hsp : stringPairs ((SKey.kstr s, v) :: t) = (s, v) :: stringPairs t := rfl
      rw [hsp, List.map_cons, ih h2, List.map_cons]
    | kint n =>
      exfalso
      simp [allStringKeys] at h

theorem mem_save_trace (s : RediStore) (sess : Session) (o : ConnOracle) (c : RedisCmd)
    (h : c ∈ (s.save sess o).trace) :
    ∃ b, serializeWith s.serializer sess = .ok b ∧
      c = .setex (s.keyPrefix ++ sess.id)
        (if sess.options.maxAge = 0 then s.DefaultMaxAge else sess.options.maxAge) b := by
  unfold RediStore.save at h
  cases hser : serializeWith s.serializer sess with
  | error e =>
    rw [hser] at h
    simp at h
  | ok b =>
    rw [hser] at h
    dsimp only at h
    refine ⟨b, rfl, ?_⟩
    by_cases hlen : s.maxLength ≠ 0 ∧ (b.length : Int) > s.maxLength
    · rw [if_pos hlen] at h
      simp at h
    · rw [if_neg hlen] at h
      cases hc : o.connErr with
      | some e =>
        rw [hc] at h
        simp at h
      | none =>
        rw [hc] at h
        dsimp only at h
        simpa using h

theorem save_trace_of_conn_ok (s : RediStore) (sess : Session) (o : ConnOracle) (b : Bytes)
    (hser : serializeWith s.serializer sess = .ok b)
    (hlen : ¬ (s.maxLength ≠ 0 ∧ (b.length : Int) > s.maxLength))
    (hc : o.connErr = none) :
    (s.save sess o).trace =
      [.setex (s.keyPrefix ++ sess.id)
        (if sess.options.maxAge = 0 then s.DefaultMaxAge else sess.options.maxAge) b] := by
  unfold RediStore.save
  rw [hser]
  dsimp only
  rw [if_neg hlen, hc]

theorem save_too_big (s : RediStore) (sess : Session) (o : ConnOracle) (b : Bytes)
    (hser : serializeWith s.serializer sess = .ok b)
    (hlen : s.maxLength ≠ 0 ∧ (b.length : Int) > s.maxLength) :
    s.save sess o = ⟨.error "SessionStore: the value to store is too big", []⟩ := by
  unfold RediStore.save
  rw [hser]
  dsimp only
  rw [if_pos hlen]

theorem Save_of_nonpos (s : RediStore) (sess : Session) (fid : String) (o : SaveOracle)
    (h : sess.options.maxAge ≤ 0) :
    s.Save sess fid o =
      match o.delErr with
      | some e => ⟨.error e, sess, [.del (s.keyPrefix ++ sess.id)], []⟩
      | none => ⟨.ok (), sess, [.del (s.keyPrefix ++ sess.id)],
          [newCookie sess.name "" sess.options]⟩ := by
  unfold RediStore.Save RediStore.delete
  rw [if_pos h]
  cases o.delErr <;> rfl

theorem Save_of_pos (s : RediStore) (sess : Session) (fid : String) (o : SaveOracle)
    (h : ¬ sess.options.maxAge ≤ 0) :
    s.Save sess fid o =
      (let session1 := if sess.id = "" then { sess with id := fid } else sess
       match s.save session1 o.conn with
       | ⟨.error e, tr⟩ => ⟨.error e, session1, tr, []⟩
       | ⟨.ok _, tr⟩ =>
         match o.encodeResult with
         | .error e => ⟨.error e, session1, tr, []⟩
         | .ok enc =>
           ⟨.ok (), session1, tr, [newCookie session1.name enc session1.options]⟩) := by
  unfold RediStore.Save
  rw [if_neg h]

/-- C1 (counterexample): at a session with MaxAge exactly 0 and a non-empty
value bag, `Save` succeeds issuing the `DEL` but does NOT clear the
session's value bag, and the cookie it emits carries the session's own
options, whose max-age is 0 — not a negative (expired) max-age as the claim
states. -/
theorem c1_counterexample :
    ((⟨⟨"/", 2592000⟩, 1200, 4096, "session_", .gob⟩ : RediStore).Save
          ⟨"n", "abc", [(.kstr "a", .vint 1)], ⟨"/", 0⟩, false⟩ "fid"
          ⟨none, ⟨none, none⟩, .ok "enc"⟩).res = .ok () ∧
    ((⟨⟨"/", 2592000⟩, 1200, 4096, "session_", .gob⟩ : RediStore).Save
          ⟨"n", "abc", [(.kstr "a", .vint 1)], ⟨"/", 0⟩, false⟩ "fid"
          ⟨none, ⟨none, none⟩, .ok "enc"⟩).session.values = [(.kstr "a", .vint 1)] ∧
    ((⟨⟨"/", 2592000⟩, 1200, 4096, "session_", .gob⟩ : RediStore).Save
          ⟨"n", "abc", [(.kstr "a", .vint 1)], ⟨"/", 0⟩, false⟩ "fid"
          ⟨none, ⟨none, none⟩, .ok "enc"⟩).cookies = [⟨"n", "", ⟨"/", 0⟩⟩] ∧
    ¬ ((⟨"n", "", ⟨"/", 0⟩⟩ : Cookie).opts.maxAge < 0) := by
  refine ⟨rfl, rfl, rfl, by norm_num⟩

/-- C1 (amended): for every session with MaxAge ≤ 0, `Save` takes the
deletion branch — identical for MaxAge = 0 and MaxAge < 0 — issuing exactly
a `DEL` against the namespaced key and leaving the session object (in
particular its value bag) unchanged; when the `DEL` succeeds it emits a
single cookie with empty value carrying the session's own options (so the
cookie's max-age is the session's MaxAge, not forcibly negative), and when
the `DEL` fails it returns that error and emits no cookie. -/
theorem c1_save_deletion_branch (s : RediStore) (sess : Session) (fid : String)
    (o : SaveOracle) (h : sess.options.maxAge ≤ 0) :
    (s.Save sess fid o).trace = [RedisCmd.del (s.keyPrefix ++ sess.id)] ∧
    (s.Save sess fid o).session = sess ∧
    (o.delErr = none →
      (s.Save sess fid o).res = .ok () ∧
      (s.Save sess fid o).cookies = [newCookie sess.name "" sess.options]) ∧
    (∀ e, o.delErr = some e →
      (s.Save sess fid o).res = .error e ∧ (s.Save sess fid o).cookies = []) := by
  rw [Save_of_nonpos s sess fid o h]
  cases hd : o.delErr with
  | none => exact ⟨rfl, rfl, fun _ => ⟨rfl, rfl⟩, fun e he => by simp at he⟩
  | some e0 =>
    refine ⟨rfl, rfl, fun hn => by simp at hn, fun e he => ?_⟩
    have : e0 = e := by simpa using he
    subst this
    exact ⟨rfl, rfl⟩

/-- C1 (witness): the amended deletion-branch behaviour at a concrete
session with MaxAge = -1. -/
theorem c1_witness :
    ((⟨"n", "i", [], ⟨"/", -1⟩, false⟩ : Session).options.maxAge ≤ 0) ∧
    ((wStore.Save ⟨"n", "i", [], ⟨"/", -1⟩, false⟩ "f" wOracle).trace =
        [RedisCmd.del ("session_" ++ "i")] ∧
      (wStore.Save ⟨"n", "i", [], ⟨"/", -1⟩, false⟩ "f" wOracle).session =
        ⟨"n", "i", [], ⟨"/", -1⟩, false⟩ ∧
      (wOracle.delErr = none →
        (wStore.Save ⟨"n", "i", [], ⟨"/", -1⟩, false⟩ "f" wOracle).res = .ok () ∧
        (wStore.Save ⟨"n", "i", [], ⟨"/", -1⟩, false⟩ "f" wOracle).cookies =
          [newCookie "n" "" ⟨"/", -1⟩]) ∧
      (∀ e, wOracle.delErr = some e →
        (wStore.Save ⟨"n", "i", [], ⟨"/", -1⟩, false⟩ "f" wOracle).res = .error e ∧
        (wStore.Save ⟨"n", "i", [], ⟨"/", -1⟩, false⟩ "f" wOracle).cookies = [])) :=
  ⟨by norm_num,
    c1_save_deletion_branch wStore ⟨"n", "i", [], ⟨"/", -1⟩, false⟩ "f" wOracle (by norm_num)⟩

/-- C2: every `SETEX` issued by the low-level `save` carries TTL equal to
the session's MaxAge with `DefaultMaxAge` substituted when MaxAge is
exactly 0; and because `Save` routes every MaxAge ≤ 0 into the deletion
branch, every `SETEX` that `Save` issues carries TTL equal to the session's
strictly positive MaxAge (the zero-substitution is unreachable via `Save`). -/
theorem c2_setex_ttl :
    (∀ (s : RediStore) (sess : Session) (o : ConnOracle) (k : String) (t : Int) (b : Bytes),
      RedisCmd.setex k t b ∈ (s.save sess o).trace →
      t = (if sess.options.maxAge = 0 then s.DefaultMaxAge else sess.options.maxAge)) ∧
    (∀ (s : RediStore) (sess : Session) (fid : String) (o : SaveOracle)
      (k : String) (t : Int) (b : Bytes),
      RedisCmd.setex k t b ∈ (s.Save sess fid o).trace →
      t = sess.options.maxAge ∧ 0 < sess.options.maxAge) := by
  constructor
  · intro s sess o k t b hmem
    obtain ⟨b2, _, hc⟩ := mem_save_trace s sess o _ hmem
    have := RedisCmd.setex.inj hc
    exact this.2.1
  · intro s sess fid o k t b hmem
    by_cases h : sess.options.maxAge ≤ 0
    · rw [Save_of_nonpos s sess fid o h] at hmem
      cases hd : o.delErr <;> rw [hd] at hmem <;> simp at hmem
    · rw [Save_of_pos s sess fid o h] at hmem
      set session1 := if sess.id = "" then { sess with id := fid } else sess with hs1
      have hopts : session1.options = sess.options := by
        rw [hs1]
        by_cases hid : sess.id = "" <;> simp [hid]
      have htr : RedisCmd.setex k t b ∈ (s.save session1 o.conn).trace := by
        dsimp only at hmem
        cases hsv : s.save session1 o.conn with
        | mk res tr =>
          rw [hsv] at hmem
          cases res with
          | error e =>
            simpa [hsv] using hmem
          | ok u =>
            cases he : o.encodeResult with
            | error e2 =>
              rw [he] at hmem
              simpa [hsv] using hmem
            | ok enc =>
              rw [he] at hmem
              simp at hmem
              simp [hsv, hmem]
      obtain ⟨b2, _, hc⟩ := mem_save_trace s session1 o.conn _ htr
      have hinj := RedisCmd.setex.inj hc
      rw [hopts] at hinj
      have hne : ¬ sess.options.maxAge = 0 := by omega
      rw [if_neg hne] at hinj
      exact ⟨hinj.2.1, by omega⟩

/-- C2 (witness): a concrete `Save` at MaxAge = 5 puts exactly one `SETEX`
on the wire, and its TTL is the session's strictly positive MaxAge. -/
theorem c2_witness :
    (RedisCmd.setex ("session_" ++ "i") 5 (gobEncode []) ∈
        (wStore.Save ⟨"n", "i", [], ⟨"/", 5⟩, false⟩ "f" wOracle).trace) ∧
    (5 : Int) = (⟨"n", "i", [], ⟨"/", 5⟩, false⟩ : Session).options.maxAge ∧
    (0 : Int) < (⟨"n", "i", [], ⟨"/", 5⟩, false⟩ : Session).options.maxAge :=
  ⟨by decide,
    c2_setex_ttl.2 wStore ⟨"n", "i", [], ⟨"/", 5⟩, false⟩ "f" wOracle
      ("session_" ++ "i") 5 (gobEncode []) (by decide)⟩

/-- C3: with serialized payload `b`, a positive ceiling rejects `b` strictly
larger than the ceiling with the payload-too-large error and no network
command; a payload of exactly the ceiling passes the check, so the `SETEX`
is issued (given a healthy connection); a ceiling of 0 disables the check
entirely. -/
theorem c3_size_ceiling (s : RediStore) (sess : Session) (o : ConnOracle) (b : Bytes)
    (hser : serializeWith s.serializer sess = .ok b) :
    (0 < s.maxLength → (b.length : Int) > s.maxLength →
      (s.save sess o).res = .error "SessionStore: the value to store is too big" ∧
      (s.save sess o).trace = []) ∧
    ((b.length : Int) = s.maxLength → o.connErr = none →
      (s.save sess o).trace =
        [.setex (s.keyPrefix ++ sess.id)
          (if sess.options.maxAge = 0 then s.DefaultMaxAge else sess.options.maxAge) b]) ∧
    (s.maxLength = 0 → o.connErr = none →
      (s.save sess o).trace =
        [.setex (s.keyPrefix ++ sess.id)
          (if sess.options.maxAge = 0 then s.DefaultMaxAge else sess.options.maxAge) b]) := by
  refine ⟨?_, ?_, ?_⟩
  · intro hpos hgt
    rw [save_too_big s sess o b hser ⟨by omega, hgt⟩]
    exact ⟨rfl, rfl⟩
  · intro heq hc
    exact save_trace_of_conn_ok s sess o b hser (by omega) hc
  · intro h0 hc
    exact save_trace_of_conn_ok s sess o b hser (by omega) hc

/-- C3 (witness): with the gob serializer and ceiling 1, a payload longer
than 1 is rejected with the too-big error and an empty wire trace; with an
empty bag the 1-token payload exactly fits the ceiling and the `SETEX` goes
out. -/
theorem c3_witness :
    (((⟨⟨"/", 100⟩, 1200, 1, "session_", .gob⟩ : RediStore).save
        ⟨"n", "i", [(.kstr "a", .vint 1)], ⟨"/", 5⟩, false⟩ ⟨none, none⟩).res =
      .error "SessionStore: the value to store is too big" ∧
     ((⟨⟨"/", 100⟩, 1200, 1, "session_", .gob⟩ : RediStore).save
        ⟨"n", "i", [(.kstr "a", .vint 1)], ⟨"/", 5⟩, false⟩ ⟨none, none⟩).trace = []) ∧
    ((⟨⟨"/", 100⟩, 1200, 1, "session_", .gob⟩ : RediStore).save
        ⟨"n", "i", [], ⟨"/", 5⟩, false⟩ ⟨none, none⟩).trace =
      [.setex ("session_" ++ "i")
        (if (5 : Int) = 0 then (1200 : Int) else (5 : Int)) (gobEncode [])] :=
  ⟨(c3_size_ceiling (⟨⟨"/", 100⟩, 1200, 1, "session_", .gob⟩ : RediStore)
      ⟨"n", "i", [(.kstr "a", .vint 1)], ⟨"/", 5⟩, false⟩ ⟨none, none⟩
      (gobEncode [(.kstr "a", .vint 1)]) rfl).1 (by decide) (by decide),
    (c3_size_ceiling (⟨⟨"/", 100⟩, 1200, 1, "session_", .gob⟩ : RediStore)
      ⟨"n", "i", [], ⟨"/", 5⟩, false⟩ ⟨none, none⟩ (gobEncode []) rfl).2.1
      (by decide) rfl⟩

/-- C4 (counterexample): cookie present, decode successful, and a payload
IS found in the store under the decoded identifier (`GET` returns bytes),
yet `IsNew` is true, because the found payload fails to deserialize — the
claim's three conditions hold but `IsNew` is not false. -/
theorem c4_counterexample :
    ((⟨none, .ok (some [1])⟩ : LoadOracle).getResult = .ok (some [1])) ∧
    ((⟨none, .ok (some [1])⟩ : LoadOracle).connErr = none) ∧
    ((⟨⟨"/", 100⟩, 1200, 4096, "session_", .gob⟩ : RediStore).New "n" (some "ck")
        (.ok "sid") ⟨none, .ok (some [1])⟩).session.isNew = true :=
  ⟨rfl, rfl, rfl⟩

/-- C4 (amended): the session returned by `New` has `IsNew = false` exactly
when a cookie with the session's name was present, it decoded successfully,
and the `load` found a payload in the store AND that payload deserialized
without error (no transport error either); in every other case `IsNew` is
true. -/
theorem c4_isNew_rule (s : RediStore) (name : String) (cookie : Option String)
    (dec : Except String String) (lo : LoadOracle) :
    (s.New name cookie dec lo).session.isNew =
      !(cookie.isSome && exceptOk dec && loadFound s.serializer lo) := by
  unfold RediStore.New
  cases cookie with
  | none => simp
  | some c =>
    cases dec with
    | error e => simp [exceptOk]
    | ok sid =>
      dsimp only
      unfold RediStore.load
      cases hc : lo.connErr with
      | some e => simp [loadFound, hc, exceptOk]
      | none =>
        cases hg : lo.getResult with
        | error e => simp [loadFound, hc, hg, exceptOk]
        | ok od =>
          cases od with
          | none => simp [loadFound, hc, hg, exceptOk]
          | some b =>
            cases hk : s.serializer with
            | gob =>
              cases hd : gobDecode b with
              | none =>
                simp [loadFound, hc, hg, hk, exceptOk, deserializeOk, deserializeWith,
                  GobDeserialize, hd]
              | some m =>
                simp [loadFound, hc, hg, hk, exceptOk, deserializeOk, deserializeWith,
                  GobDeserialize, hd]
            | json =>
              cases hd : jsonDecode b with
              | none =>
                simp [loadFound, hc, hg, hk, exceptOk, deserializeOk, deserializeWith,
                  JSONDeserialize, hd]
              | some m =>
                simp [loadFound, hc, hg, hk, exceptOk, deserializeOk, deserializeWith,
                  JSONDeserialize, hd]

/-- C5: serializer round trip on a session with an empty value bag — the
gob serializer reconstructs the bag exactly; the JSON serializer (on a bag
whose keys are all strings) reconstructs every key/value pair with values
widened (`vint` comes back as a JSON number). -/
theorem c5_serializer_roundtrip :
    (∀ (B : Values) (s1 s2 : Session),
      (B.map Prod.fst).Nodup → s1.values = B → s2.values = [] →
      GobSerialize s1 = .ok (gobEncode B) ∧
      GobDeserialize (gobEncode B) s2 = .ok { s2 with values := B }) ∧
    (∀ (B : Values) (s1 s2 : Session),
      (B.map Prod.fst).Nodup → allStringKeys B = true → s1.values = B → s2.values = [] →
      JSONSerialize s1 = .ok (jsonEncode (stringPairs B)) ∧
      JSONDeserialize (jsonEncode (stringPairs B)) s2 =
        .ok { s2 with values := B.map (fun p => (p.1, jwiden p.2)) }) := by
  constructor
  · intro B s1 s2 hnd h1 h2
    constructor
    · unfold GobSerialize
      rw [h1]
    · unfold GobDeserialize
      rw [gobDecode_gobEncode]
      dsimp only
      rw [h2, mergeVals_nil_left B hnd]
  · intro B s1 s2 hnd hstr h1 h2
    constructor
    · unfold JSONSerialize
      rw [h1, if_pos hstr]
    · unfold JSONDeserialize
      rw [jsonDecode_jsonEncode]
      dsimp only
      rw [h2]
      have hmaps :
          ((stringPairs B).map (fun p => (p.1, jwiden p.2))).map
              (fun p => (SKey.kstr p.1, p.2)) =
            B.map (fun p => (p.1, jwiden p.2)) := by
        rw [List.map_map]
        exact stringPairs_widen B hstr
      rw [hmaps]
      have hnd2 : ((B.map (fun p => (p.1, jwiden p.2))).map Prod.fst).Nodup := by
        rw [List.map_map]
        exact hnd
      rw [mergeVals_nil_left _ hnd2]

/-- C5 (witness): round trip of a concrete two-entry bag through both
serializers. -/
theorem c5_witness :
    (([(SKey.kstr "a", SVal.vint 1), (SKey.kstr "b", SVal.vbool true)].map
        Prod.fst).Nodup ∧
      allStringKeys [(SKey.kstr "a", SVal.vint 1), (SKey.kstr "b", SVal.vbool true)] =
        true) ∧
    GobDeserialize
        (gobEncode [(SKey.kstr "a", SVal.vint 1), (SKey.kstr "b", SVal.vbool true)])
        ⟨"n", "i", [], ⟨"/", 5⟩, true⟩ =
      .ok ⟨"n", "i", [(SKey.kstr "a", SVal.vint 1), (SKey.kstr "b", SVal.vbool true)],
        ⟨"/", 5⟩, true⟩ ∧
    JSONDeserialize
        (jsonEncode (stringPairs
          [(SKey.kstr "a", SVal.vint 1), (SKey.kstr "b", SVal.vbool true)]))
        ⟨"n", "i", [], ⟨"/", 5⟩, true⟩ =
      .ok ⟨"n", "i", [(SKey.kstr "a", SVal.vnum 1), (SKey.kstr "b", SVal.vbool true)],
        ⟨"/", 5⟩, true⟩ :=
  ⟨⟨by decide, by decide⟩,
    (c5_serializer_roundtrip.1
      [(SKey.kstr "a", SVal.vint 1), (SKey.kstr "b", SVal.vbool true)]
      ⟨"n", "i", [(SKey.kstr "a", SVal.vint 1), (SKey.kstr "b", SVal.vbool true)],
        ⟨"/", 5⟩, false⟩
      ⟨"n", "i", [], ⟨"/", 5⟩, true⟩ (by decide) rfl rfl).2,
    (c5_serializer_roundtrip.2
      [(SKey.kstr "a", SVal.vint 1), (SKey.kstr "b", SVal.vbool true)]
      ⟨"n", "i", [(SKey.kstr "a", SVal.vint 1), (SKey.kstr "b", SVal.vbool true)],
        ⟨"/", 5⟩, false⟩
      ⟨"n", "i", [], ⟨"/", 5⟩, true⟩ (by decide) (by decide) rfl rfl).2⟩

theorem Save_session_eq (s : RediStore) (sess : Session) (fid : String) (o : SaveOracle) :
    (s.Save sess fid o).session =
      (if sess.options.maxAge ≤ 0 then sess
       else if sess.id = "" then { sess with id := fid } else sess) := by
  by_cases h : sess.options.maxAge ≤ 0
  · rw [Save_of_nonpos s sess fid o h, if_pos h]
    cases o.delErr <;> rfl
  · rw [Save_of_pos s sess fid o h, if_neg h]
    dsimp only
    cases hsv : s.save (if sess.id = "" then { sess with id := fid } else sess) o.conn with
    | mk res tr =>
      cases res with
      | error e => rfl
      | ok u => cases o.encodeResult <;> rfl

/-- C6: `Save` never changes a non-empty session identifier — on either
branch the session comes back with the identifier it had; a fresh
identifier is assigned exactly when the identifier was the empty string
(and the save branch was taken). -/
theorem c6_identifier_stability :
    (∀ (s : RediStore) (sess : Session) (fid : String) (o : SaveOracle),
      sess.id ≠ "" → (s.Save sess fid o).session.id = sess.id) ∧
    (∀ (s : RediStore) (sess : Session) (fid : String) (o : SaveOracle),
      sess.id = "" → 0 < sess.options.maxAge → (s.Save sess fid o).session.id = fid) := by
  constructor
  · intro s sess fid o hid
    rw [Save_session_eq s sess fid o]
    by_cases h : sess.options.maxAge ≤ 0
    · rw [if_pos h]
    · rw [if_neg h, if_neg hid]
  · intro s sess fid o hid hpos
    rw [Save_session_eq s sess fid o, if_neg (by omega), if_pos hid]

/-- C6 (witness): a session already holding identifier "abc" keeps it
through `Save`; an empty identifier is replaced by the fresh token. -/
theorem c6_witness :
    ((⟨"n", "abc", [], ⟨"/", 5⟩, false⟩ : Session).id ≠ "" ∧
      (wStore.Save ⟨"n", "abc", [], ⟨"/", 5⟩, false⟩ "fresh" wOracle).session.id = "abc") ∧
    ((⟨"n", "", [], ⟨"/", 5⟩, false⟩ : Session).id = "" ∧
      (0 : Int) < 5 ∧
      (wStore.Save ⟨"n", "", [], ⟨"/", 5⟩, false⟩ "fresh" wOracle).session.id = "fresh") :=
  ⟨⟨by decide,
      c6_identifier_stability.1 wStore ⟨"n", "abc", [], ⟨"/", 5⟩, false⟩ "fresh" wOracle
        (by decide)⟩,
    ⟨rfl, by norm_num,
      c6_identifier_stability.2 wStore ⟨"n", "", [], ⟨"/", 5⟩, false⟩ "fresh" wOracle rfl
        (by norm_num)⟩⟩

theorem applyOptions_addr_url (network address url : String)
    (hae : ¬ (network = "" ∨ address = "")) (hu : ¬ url = "") :
    ∃ cfg : storeConfig,
      applyOptions [.withAddress network address, .withURL url] defaultConfig = .ok cfg ∧
      cfg.pool = none ∧ cfg.address = some (network, address) ∧ cfg.url = url := by
  refine ⟨{ defaultConfig with address := some (network, address), url := url },
    ?_, rfl, rfl, rfl⟩
  unfold applyOptions applyOption
  dsimp only
  rw [if_neg hae]
  dsimp only
  unfold applyOptions applyOption
  dsimp only
  rw [if_neg hu]
  rfl

theorem NewStore_validate_error (kp : List Bytes) (opts : List StoreOpt)
    (ping : Except String Bool) (cfg : storeConfig) (e : String)
    (hkp : kp ≠ [])
    (happ : applyOptions opts defaultConfig = .ok cfg)
    (hval : cfg.validate = .error e) :
    NewStore kp opts ping = ⟨.error ("invalid configuration: " ++ e), false⟩ := by
  unfold NewStore
  rw [if_neg hkp, happ]
  dsimp only
  rw [hval]

/-- C7: construction validation — an empty key-pair sequence fails before
anything else; zero or more than one connection target fails validation;
a nil pool, nil serializer or nil session options is rejected by its
option; database numbers outside [0,15], non-positive pool sizes, negative
idle timeouts and negative max lengths are rejected by their options; and
a store configured with both a network address and a URL fails with a
configuration error with no network connection attempted. -/
theorem c7_construction_validation :
    (∀ (opts : List StoreOpt) (ping : Except String Bool),
      (NewStore [] opts ping).res = .error "at least one key pair is required" ∧
      (NewStore [] opts ping).networkAttempted = false) ∧
    (∀ cfg : storeConfig, cfg.connCount = 0 → ∃ e, cfg.validate = .error e) ∧
    (∀ cfg : storeConfig, 1 < cfg.connCount → ∃ e, cfg.validate = .error e) ∧
    (∀ cfg : storeConfig, ∃ e, applyOption (.withPool none) cfg = .error e) ∧
    (∀ cfg : storeConfig, ∃ e, applyOption (.withSerializer none) cfg = .error e) ∧
    (∀ cfg : storeConfig, ∃ e, applyOption (.withSessionOptions none) cfg = .error e) ∧
    (∀ (cfg : storeConfig) (n : Int), n < 0 ∨ 15 < n →
      ∃ e, applyOption (.withDBNum n) cfg = .error e) ∧
    (∀ (cfg : storeConfig) (n : Int), n ≤ 0 →
      ∃ e, applyOption (.withPoolSize n) cfg = .error e) ∧
    (∀ (cfg : storeConfig) (t : Int), t < 0 →
      ∃ e, applyOption (.withIdleTimeout t) cfg = .error e) ∧
    (∀ (cfg : storeConfig) (n : Int), n < 0 →
      ∃ e, applyOption (.withMaxLength n) cfg = .error e) ∧
    (∀ (kp : List Bytes) (ping : Except String Bool) (network address url : String),
      kp ≠ [] → network ≠ "" → address ≠ "" → url ≠ "" →
      (∃ e, (NewStore kp [.withAddress network address, .withURL url] ping).res =
        .error e) ∧
      (NewStore kp [.withAddress network address, .withURL url] ping).networkAttempted =
        false) := by
  refine ⟨?_, ?_, ?_, ?_, ?_, ?_, ?_, ?_, ?_, ?_, ?_⟩
  · intro opts ping
    exact ⟨by simp [NewStore], by simp [NewStore]⟩
  · intro cfg h0
    exact ⟨"exactly one connection option is required", by
      unfold storeConfig.validate
      rw [if_pos h0]⟩
  · intro cfg h1
    refine ⟨"only one connection option can be specified", ?_⟩
    unfold storeConfig.validate
    rw [if_neg (by omega), if_pos h1]
  · intro cfg
    exact ⟨"pool cannot be nil", rfl⟩
  · intro cfg
    exact ⟨"serializer cannot be nil", rfl⟩
  · intro cfg
    exact ⟨"session options cannot be nil", rfl⟩
  · intro cfg n hn
    refine ⟨"database number must be between 0 and 15", ?_⟩
    unfold applyOption
    dsimp only
    rw [if_pos hn]
  · intro cfg n hn
    refine ⟨"pool size must be positive", ?_⟩
    unfold applyOption
    dsimp only
    rw [if_pos hn]
  · intro cfg t ht
    refine ⟨"idle timeout cannot be negative", ?_⟩
    unfold applyOption
    dsimp only
    rw [if_pos ht]
  · intro cfg n hn
    refine ⟨"max length cannot be negative", ?_⟩
    unfold applyOption
    dsimp only
    rw [if_pos hn]
  · intro kp ping network address url hkp hn ha hu
    have hae : ¬ (network = "" ∨ address = "") := by
      rintro (h | h)
      · exact hn h
      · exact ha h
    obtain ⟨cfg, happ, hpool, haddr, hurl⟩ := applyOptions_addr_url network address url hae hu
    have hcnt : 1 < cfg.connCount := by
      unfold storeConfig.connCount
      rw [hpool, haddr, hurl, if_pos hu]
      simp
    have hval : cfg.validate = .error "only one connection option can be specified" := by
      unfold storeConfig.validate
      rw [if_neg (by omega), if_pos hcnt]
    have hns := NewStore_validate_error kp _ ping cfg _ hkp happ hval
    exact ⟨⟨"invalid configuration: " ++ "only one connection option can be specified",
      by rw [hns]⟩, by rw [hns]⟩

/-- C7 (witness): validation at concrete configurations — empty key pairs,
zero and two connection targets, each invalid option value, and the
address-plus-URL conflict with the network untouched. -/
theorem c7_witness :
    ((NewStore [] [] (.ok true)).res = .error "at least one key pair is required" ∧
      (NewStore [] [] (.ok true)).networkAttempted = false) ∧
    (∃ e, defaultConfig.validate = .error e) ∧
    (∃ e, applyOption (.withPool none) defaultConfig = .error e) ∧
    (∃ e, applyOption (.withSerializer none) defaultConfig = .error e) ∧
    (∃ e, applyOption (.withSessionOptions none) defaultConfig = .error e) ∧
    (∃ e, applyOption (.withDBNum 16) defaultConfig = .error e) ∧
    (∃ e, applyOption (.withPoolSize 0) defaultConfig = .error e) ∧
    (∃ e, applyOption (.withIdleTimeout (-1)) defaultConfig = .error e) ∧
    (∃ e, applyOption (.withMaxLength (-1)) defaultConfig = .error e) ∧
    ((∃ e, (NewStore [[1]] [.withAddress "tcp" ":6379", .withURL "redis://h"]
        (.ok true)).res = .error e) ∧
      (NewStore [[1]] [.withAddress "tcp" ":6379", .withURL "redis://h"]
        (.ok true)).networkAttempted = false) :=
  ⟨c7_construction_validation.1 [] (.ok true),
    c7_construction_validation.2.1 defaultConfig (by decide),
    c7_construction_validation.2.2.2.1 defaultConfig,
    c7_construction_validation.2.2.2.2.1 defaultConfig,
    c7_construction_validation.2.2.2.2.2.1 defaultConfig,
    c7_construction_validation.2.2.2.2.2.2.1 defaultConfig 16 (by norm_num),
    c7_construction_validation.2.2.2.2.2.2.2.1 defaultConfig 0 (by norm_num),
    c7_construction_validation.2.2.2.2.2.2.2.2.1 defaultConfig (-1) (by norm_num),
    c7_construction_validation.2.2.2.2.2.2.2.2.2.1 defaultConfig (-1) (by norm_num),
    c7_construction_validation.2.2.2.2.2.2.2.2.2.2 [[1]] (.ok true) "tcp" ":6379"
      "redis://h" (by decide) (by decide) (by decide) (by decide)⟩

/-- C8: every redis key used by `save`, `load` and `delete` is exactly the
configured key prefix concatenated with the session's identifier, with
nothing in between. -/
theorem c8_key_derivation :
    (∀ (s : RediStore) (sess : Session) (o : ConnOracle) (c : RedisCmd),
      c ∈ (s.save sess o).trace → cmdKey c = s.keyPrefix ++ sess.id) ∧
    (∀ (s : RediStore) (sess : Session) (o : LoadOracle) (c : RedisCmd),
      c ∈ (s.load sess o).trace → cmdKey c = s.keyPrefix ++ sess.id) ∧
    (∀ (s : RediStore) (sess : Session) (e : Option String) (c : RedisCmd),
      c ∈ (s.delete sess e).trace → cmdKey c = s.keyPrefix ++ sess.id) := by
  refine ⟨?_, ?_, ?_⟩
  · intro s sess o c h
    obtain ⟨b, _, hc⟩ := mem_save_trace s sess o c h
    rw [hc]
    rfl
  · intro s sess o c h
    unfold RediStore.load at h
    cases hc : o.connErr with
    | some e =>
      rw [hc] at h
      simp at h
    | none =>
      rw [hc] at h
      dsimp only at h
      cases hg : o.getResult with
      | error e =>
        rw [hg] at h
        dsimp only at h
        have : c = RedisCmd.get (s.keyPrefix ++ sess.id) := by simpa using h
        rw [this]
        rfl
      | ok od =>
        rw [hg] at h
        cases od with
        | none =>
          have : c = RedisCmd.get (s.keyPrefix ++ sess.id) := by simpa using h
          rw [this]
          rfl
        | some b =>
          dsimp only at h
          cases hdw : deserializeWith s.serializer b sess with
          | error e =>
            rw [hdw] at h
            have : c = RedisCmd.get (s.keyPrefix ++ sess.id) := by simpa using h
            rw [this]
            rfl
          | ok s2 =>
            rw [hdw] at h
            have : c = RedisCmd.get (s.keyPrefix ++ sess.id) := by simpa using h
            rw [this]
            rfl
  · intro s sess e c h
    unfold RediStore.delete at h
    have : c = RedisCmd.del (s.keyPrefix ++ sess.id) := by simpa using h
    rw [this]
    rfl

/-- C8 (witness): the keys of the commands issued by a concrete `save`,
`load` and `delete` all equal the prefix concatenated with the identifier. -/
theorem c8_witness :
    (RedisCmd.setex ("session_" ++ "i") 5 (gobEncode []) ∈
        (wStore.save ⟨"n", "i", [], ⟨"/", 5⟩, false⟩ ⟨none, none⟩).trace ∧
      cmdKey (RedisCmd.setex ("session_" ++ "i") 5 (gobEncode [])) =
        "session_" ++ "i") ∧
    (RedisCmd.get ("session_" ++ "i") ∈
        (wStore.load ⟨"n", "i", [], ⟨"/", 5⟩, false⟩ ⟨none, .ok none⟩).trace ∧
      cmdKey (RedisCmd.get ("session_" ++ "i")) = "session_" ++ "i") ∧
    (RedisCmd.del ("session_" ++ "i") ∈
        (wStore.delete ⟨"n", "i", [], ⟨"/", 5⟩, false⟩ none).trace ∧
      cmdKey (RedisCmd.del ("session_" ++ "i")) = "session_" ++ "i") :=
  ⟨⟨by decide,
      c8_key_derivation.1 wStore ⟨"n", "i", [], ⟨"/", 5⟩, false⟩ ⟨none, none⟩
        (RedisCmd.setex ("session_" ++ "i") 5 (gobEncode [])) (by decide)⟩,
    ⟨by decide,
      c8_key_derivation.2.1 wStore ⟨"n", "i", [], ⟨"/", 5⟩, false⟩ ⟨none, .ok none⟩
        (RedisCmd.get ("session_" ++ "i")) (by decide)⟩,
    ⟨by decide,
      c8_key_derivation.2.2 wStore ⟨"n", "i", [], ⟨"/", 5⟩, false⟩ none
        (RedisCmd.del ("session_" ++ "i")) (by decide)⟩⟩

/-- C9: `New` hands each session a freshly allocated copy of the store's
options cell, so writing through the session's options pointer never
changes the cell the store's `Options` field points to, and two sessions
allocated in sequence hold distinct cells, so writing through one leaves
the other untouched. -/
theorem c9_options_copy (h : OptionsHeap) (storeRef : Nat) (v w : SessionOptions)
    (hr : storeRef < h.length) :
    (newSessionAlloc h storeRef).2 ≠ storeRef ∧
    heapRead (heapWrite (newSessionAlloc h storeRef).1 (newSessionAlloc h storeRef).2 v)
        storeRef = heapRead h storeRef ∧
    (newSessionAlloc (newSessionAlloc h storeRef).1 storeRef).2 ≠
      (newSessionAlloc h storeRef).2 ∧
    heapRead
        (heapWrite (newSessionAlloc (newSessionAlloc h storeRef).1 storeRef).1
          (newSessionAlloc (newSessionAlloc h storeRef).1 storeRef).2 w)
        (newSessionAlloc h storeRef).2 =
      heapRead (newSessionAlloc (newSessionAlloc h storeRef).1 storeRef).1
        (newSessionAlloc h storeRef).2 := by
  unfold newSessionAlloc heapRead heapWrite
  dsimp only
  refine ⟨by omega, ?_, ?_, ?_⟩
  · rw [List.getElem?_set_ne (by omega)]
    exact List.getElem?_append_left hr
  · simp
  · rw [List.getElem?_set_ne
      (by simp only [List.length_append, List.length_singleton]; omega)]

/-- C9 (witness): the aliasing separation at a concrete one-cell heap. -/
theorem c9_witness :
    (0 : Nat) < ([⟨"/", 100⟩] : OptionsHeap).length ∧
    ((newSessionAlloc [⟨"/", 100⟩] 0).2 ≠ 0 ∧
      heapRead (heapWrite (newSessionAlloc [⟨"/", 100⟩] 0).1
          (newSessionAlloc [⟨"/", 100⟩] 0).2 ⟨"/", -1⟩) 0 =
        heapRead [⟨"/", 100⟩] 0 ∧
      (newSessionAlloc (newSessionAlloc [⟨"/", 100⟩] 0).1 0).2 ≠
        (newSessionAlloc [⟨"/", 100⟩] 0).2 ∧
      heapRead
          (heapWrite (newSessionAlloc (newSessionAlloc [⟨"/", 100⟩] 0).1 0).1
            (newSessionAlloc (newSessionAlloc [⟨"/", 100⟩] 0).1 0).2 ⟨"/", -2⟩)
          (newSessionAlloc [⟨"/", 100⟩] 0).2 =
        heapRead (newSessionAlloc (newSessionAlloc [⟨"/", 100⟩] 0).1 0).1
          (newSessionAlloc [⟨"/", 100⟩] 0).2) :=
  ⟨by decide, c9_options_copy [⟨"/", 100⟩] 0 ⟨"/", -1⟩ ⟨"/", -2⟩ (by decide)⟩

/-- C10: whenever `Save` returns an error — from the deletion branch's
`DEL`, from `save` (serialization, size ceiling, transport), or from cookie
encoding — no cookie is written to the response. -/
theorem c10_no_cookie_on_error (s : RediStore) (sess : Session) (fid : String)
    (o : SaveOracle) (e : String) (h : (s.Save sess fid o).res = .error e) :
    (s.Save sess fid o).cookies = [] := by
  by_cases hm : sess.options.maxAge ≤ 0
  · rw [Save_of_nonpos s sess fid o hm] at h ⊢
    cases hd : o.delErr with
    | none =>
      rw [hd] at h
      simp at h
    | some e0 => rfl
  · rw [Save_of_pos s sess fid o hm] at h ⊢
    dsimp only at h ⊢
    cases hsv : s.save (if sess.id = "" then { sess with id := fid } else sess) o.conn with
    | mk res tr =>
      rw [hsv] at h
      cases res with
      | error e2 => rfl
      | ok u =>
        dsimp only at h
        cases he : o.encodeResult with
        | error e2 => rfl
        | ok enc =>
          rw [he] at h
          simp at h

/-- C10 (witness): a concrete failing `Save` (the `DEL` of the deletion
branch fails) writes no cookie. -/
theorem c10_witness :
    ((wStore.Save ⟨"n", "i", [], ⟨"/", 0⟩, false⟩ "f"
        ⟨some "boom", ⟨none, none⟩, .ok "enc"⟩).res = .error "boom") ∧
    (wStore.Save ⟨"n", "i", [], ⟨"/", 0⟩, false⟩ "f"
        ⟨some "boom", ⟨none, none⟩, .ok "enc"⟩).cookies = [] :=
  ⟨rfl,
    c10_no_cookie_on_error wStore ⟨"n", "i", [], ⟨"/", 0⟩, false⟩ "f"
      ⟨some "boom", ⟨none, none⟩, .ok "enc"⟩ "boom" rfl⟩

end Redistore
